import Mathlib

/-!
# Verification of the `doctor` validation/coercion core

A shallow embedding, in Lean 4, of the parts of the `doctor` repository that
the specification's claims are about:

* `doctor/parsers.py` — untyped-string disambiguation (`parse_value` and the
  `_parser_funcs` table);
* `doctor/types.py` — the type-definition framework (`String`, `Integer`,
  `Boolean`, `Enum`, `Object`, `Array` and their validate-and-coerce
  constructors);
* `doctor/schema.py` — `SchemaRefResolver.resolve`, `_format_stack`, and the
  `jsonschema.RefResolver` machinery it relies on (scope stack, fragment
  resolution, URI joining).

Python values flowing through the validators are modelled by the inductive
`PyValue`; Python floats are idealized as exact rationals (plus `nan`/`inf`
markers) since no claim depends on IEEE rounding.  Python `dict`s are modelled
as insertion-ordered association lists, matching CPython 3.6+ semantics.
-/

set_option linter.unusedVariables false

namespace Doctor

/-! ## Python character/string primitives (ASCII fragment) -/

/-- The ASCII whitespace characters stripped by Python's `str.strip()` /
`str.lstrip()` and by `int()` / `float()` conversion.  (Python also strips
non-ASCII unicode whitespace; the claims only involve ASCII data.) -/
def pySpace (c : Char) : Bool :=
  c.toNat = 32 || c.toNat = 9 || c.toNat = 10 || c.toNat = 13 ||
    c.toNat = 11 || c.toNat = 12

/-- ASCII decimal digit (`'0'`..`'9'`). -/
def pyIsDigit (c : Char) : Bool :=
  48 ≤ c.toNat && c.toNat ≤ 57

/-- Numeric value of an ASCII digit. -/
def digitVal (c : Char) : Nat := c.toNat - 48

/-- ASCII lower-casing of one character (Python `str.lower()` on ASCII data). -/
def pyLowerChar (c : Char) : Char :=
  if 65 ≤ c.toNat ∧ c.toNat ≤ 90 then Char.ofNat (c.toNat + 32) else c

/-- Python `str.lower()` (ASCII fragment). -/
def pyLower (s : String) : String := ⟨s.data.map pyLowerChar⟩

/-- Drop leading Python whitespace from a character list (`str.lstrip()`). -/
def lstripL (l : List Char) : List Char := l.dropWhile pySpace

/-- Strip Python whitespace from both ends (`str.strip()`). -/
def stripL (l : List Char) : List Char :=
  ((l.dropWhile pySpace).reverse.dropWhile pySpace).reverse

/-- Python `str.strip()` on a `String`. -/
def pyStrip (s : String) : String := ⟨stripL s.data⟩

/-- Python `str.lstrip()` on a `String`. -/
def pyLstrip (s : String) : String := ⟨lstripL s.data⟩

/-! ## Python `int(str)` (CPython base-10 string conversion)

`int(s)` accepts optional surrounding whitespace, an optional sign, and a
non-empty digit sequence in which single underscores may appear between
digits (CPython ≥ 3.6). -/

/-- Accumulating parse of `digit (digit | '_' digit)*`; `acc` holds the value
of the digits already consumed.  Returns `none` on a malformed tail. -/
def pyDigitsAux : Nat → List Char → Option Nat
  | acc, [] => some acc
  | acc, c :: rest =>
    if pyIsDigit c then pyDigitsAux (10 * acc + digitVal c) rest
    else if c = '_' then
      match rest with
      | [] => none
      | d :: rest2 =>
        if pyIsDigit d then pyDigitsAux (10 * acc + digitVal d) rest2
        else none
    else none

/-- Parse a non-empty underscore-separated digit run (first char must be a
digit). -/
def pyDigits : List Char → Option Nat
  | [] => none
  | c :: rest => if pyIsDigit c then pyDigitsAux (digitVal c) rest else none

/-- Sign-and-digits stage of `int(s)`, applied to the stripped characters. -/
def pyIntL : List Char → Option Int
  | [] => none
  | c :: rest =>
    if c = '+' then (pyDigits rest).map Int.ofNat
    else if c = '-' then (pyDigits rest).map (fun n => -(n : Int))
    else (pyDigits (c :: rest)).map Int.ofNat

/-- Model of CPython `int(s)` for a `str` argument: `None` means the call
raises `ValueError`. -/
def pyInt (s : String) : Option Int := pyIntL (stripL s.data)

/-! ## Python `float(str)`

Python float *values* are idealized as exact rationals (no claim depends on
IEEE rounding), with explicit markers for the non-finite results `nan`,
`inf` and `-inf`. -/

/-- An idealized Python float. -/
inductive PyFloat where
  | finite (q : ℚ)
  | inf
  | neginf
  | nan
deriving DecidableEq

/-- Consume a maximal run of digits in which single underscores may appear
between digits (the CPython numeric-literal rule).  Returns the value of the
digits consumed, how many digits were consumed, and the rest of the input;
`none` when an underscore is not followed by a digit. -/
def digitsRun : Nat → Nat → List Char → Option (Nat × Nat × List Char)
  | acc, cnt, [] => some (acc, cnt, [])
  | acc, cnt, c :: rest =>
    if pyIsDigit c then digitsRun (10 * acc + digitVal c) (cnt + 1) rest
    else if c = '_' ∧ cnt ≠ 0 then
      match rest with
      | [] => none
      | d :: rest2 =>
        if pyIsDigit d then digitsRun (10 * acc + digitVal d) (cnt + 1) rest2
        else none
    else some (acc, cnt, c :: rest)

/-- Parse the decimal part of a float literal:
`(digits ('.' digits?)? | '.' digits) (('e'|'E') sign? digits)?`. -/
def parseDecimal (l : List Char) : Option ℚ := do
  let (ip, ic, rest) ← digitsRun 0 0 l
  let (fp, fc, rest2) ←
    match rest with
    | '.' :: r => digitsRun 0 0 r
    | _ => some (0, 0, rest)
  if ic + fc = 0 then none else
  let mant : ℚ := ((ip : ℚ) * (10 : ℚ) ^ fc + (fp : ℚ)) / (10 : ℚ) ^ fc
  match rest2 with
  | [] => some mant
  | e :: r =>
    if e = 'e' ∨ e = 'E' then
      let (eneg, r2) :=
        match r with
        | '+' :: r2 => (false, r2)
        | '-' :: r2 => (true, r2)
        | r2 => (false, r2)
      match digitsRun 0 0 r2 with
      | some (ev, ec, []) =>
        if ec = 0 then none
        else some (mant * (10 : ℚ) ^ (if eneg then -(ev : ℤ) else (ev : ℤ)))
      | _ => none
    else none

/-- Model of CPython `float(s)` for a `str` argument: `none` means the call
raises `ValueError`. -/
def pyFloat (s : String) : Option PyFloat :=
  let l := stripL s.data
  let (neg, l2) :=
    match l with
    | '+' :: r => (false, r)
    | '-' :: r => (true, r)
    | r => (false, r)
  let low := l2.map pyLowerChar
  if low = "inf".data ∨ low = "infinity".data then
    some (if neg then PyFloat.neginf else PyFloat.inf)
  else if low = "nan".data then some PyFloat.nan
  else (parseDecimal l2).map (fun q => PyFloat.finite (if neg then -q else q))

/-! ## Python values

The untyped values flowing through the validators.  Python `dict`s are
insertion-ordered association lists with string keys (the validators only
ever build and consume string-keyed mappings; `Object` validation rejects
non-string keys up front). -/

/-- A Python value, as seen by the validation core. -/
inductive PyValue where
  | none
  | bool (b : Bool)
  | int (n : Int)
  | float (x : PyFloat)
  | str (s : String)
  | list (xs : List PyValue)
  | dict (entries : List (String × PyValue))

/-- Is the value a Python `str`?  (`isinstance(v, str)`) -/
def PyValue.isStr : PyValue → Bool
  | .str _ => true
  | _ => false

/-- Python truthiness (`bool(v)`) for non-`str` values: `None` and numeric
zero are falsy, empty containers are falsy, everything else is truthy
(`nan` and the infinities are truthy). -/
def pyTruthy : PyValue → Bool
  | .none => false
  | .bool b => b
  | .int n => n ≠ 0
  | .float (.finite q) => q ≠ 0
  | .float _ => true
  | .str s => s ≠ ""
  | .list xs => !xs.isEmpty
  | .dict entries => !entries.isEmpty

mutual

/-- Structural equality on `PyValue`, modelling Python `==` on JSON-like data.
(Python additionally identifies `True == 1` and `0.0 == 0` across types;
no claim exercises cross-type equality, so the structural version is used.) -/
def PyValue.beq : PyValue → PyValue → Bool
  | .none, .none => true
  | .bool a, .bool b => a == b
  | .int a, .int b => a == b
  | .float a, .float b => a == b
  | .str a, .str b => a == b
  | .list a, .list b => beqList a b
  | .dict a, .dict b => beqEntries a b
  | _, _ => false

/-- Elementwise `PyValue.beq` on lists. -/
def PyValue.beqList : List PyValue → List PyValue → Bool
  | [], [] => true
  | a :: as2, b :: bs2 => PyValue.beq a b && beqList as2 bs2
  | _, _ => false

/-- Elementwise `PyValue.beq` on association lists. -/
def PyValue.beqEntries : List (String × PyValue) → List (String × PyValue) → Bool
  | [], [] => true
  | (k1, v1) :: as2, (k2, v2) :: bs2 =>
    k1 == k2 && PyValue.beq v1 v2 && beqEntries as2 bs2
  | _, _ => false

end

instance : BEq PyValue := ⟨PyValue.beq⟩

/-! ## JSON parsing (model of `simplejson.loads`)

A fuel-indexed recursive-descent parser over character lists.  It follows the
JSON grammar plus the `simplejson` extensions used by the repository
(`NaN`, `Infinity`, `-Infinity` literals).  The fuel only bounds *nesting*
(each recursive step consumes at least the opening bracket), so
`length + 1` fuel always suffices. -/

/-- JSON structural whitespace. -/
def jsonWs (c : Char) : Bool :=
  c.toNat = 32 || c.toNat = 9 || c.toNat = 10 || c.toNat = 13

/-- Skip JSON whitespace. -/
def jsonSkip (l : List Char) : List Char := l.dropWhile jsonWs

/-- Expect a literal character sequence. -/
def expectL (pat l : List Char) : Option (List Char) :=
  if pat.isPrefixOf l then some (l.drop pat.length) else none

/-- Hex digit value, if any. -/
def hexVal (c : Char) : Option Nat :=
  if 48 ≤ c.toNat ∧ c.toNat ≤ 57 then some (c.toNat - 48)
  else if 97 ≤ c.toNat ∧ c.toNat ≤ 102 then some (c.toNat - 87)
  else if 65 ≤ c.toNat ∧ c.toNat ≤ 70 then some (c.toNat - 55)
  else none

/-- Body of a JSON string after the opening quote: consume characters and
escape sequences up to the closing quote.  (Surrogate-pair recombination for
`\uXXXX` escapes is not modelled; no claim touches it.) -/
def jsonStringAux : List Char → List Char → Option (String × List Char)
  | _, [] => none
  | acc, c :: rest =>
    if c = '"' then some (⟨acc.reverse⟩, rest)
    else if c = '\\' then
      match rest with
      | [] => none
      | e :: rest2 =>
        if e = '"' then jsonStringAux ('"' :: acc) rest2
        else if e = '\\' then jsonStringAux ('\\' :: acc) rest2
        else if e = '/' then jsonStringAux ('/' :: acc) rest2
        else if e = 'b' then jsonStringAux (Char.ofNat 8 :: acc) rest2
        else if e = 'f' then jsonStringAux (Char.ofNat 12 :: acc) rest2
        else if e = 'n' then jsonStringAux ('\n' :: acc) rest2
        else if e = 'r' then jsonStringAux ('\r' :: acc) rest2
        else if e = 't' then jsonStringAux ('\t' :: acc) rest2
        else if e = 'u' then
          match rest2 with
          | h1 :: h2 :: h3 :: h4 :: rest3 =>
            match hexVal h1, hexVal h2, hexVal h3, hexVal h4 with
            | some a, some b, some c2, some d =>
              jsonStringAux (Char.ofNat (((a * 16 + b) * 16 + c2) * 16 + d) :: acc) rest3
            | _, _, _, _ => none
          | _ => none
        else none
    else jsonStringAux (c :: acc) rest

/-- Plain digit run (no underscores — JSON forbids them): value, digit count
and rest. -/
def jsonDigits : Nat → Nat → List Char → Nat × Nat × List Char
  | acc, cnt, [] => (acc, cnt, [])
  | acc, cnt, c :: rest =>
    if pyIsDigit c then jsonDigits (10 * acc + digitVal c) (cnt + 1) rest
    else (acc, cnt, c :: rest)

/-- A JSON number after an optional leading `-` has been noted: strict
integer part (no leading zeros), optional fraction and exponent.  Integer
literals produce `int`, anything with a fraction or exponent a `float`. -/
def jsonNumber (neg : Bool) (l : List Char) : Option (PyValue × List Char) :=
  let (ip, ic, rest) := jsonDigits 0 0 l
  if ic = 0 then none
  else if l.headD ' ' = '0' ∧ 1 < ic then none
  else
    let (fp, fc, rest2) :=
      match rest with
      | '.' :: r => jsonDigits 0 0 r
      | _ => (0, 0, rest)
    if rest ≠ rest2 ∧ fc = 0 then none else
    let hasFrac := rest ≠ rest2
    let (eres, rest3) :=
      match rest2 with
      | e :: r =>
        if e = 'e' ∨ e = 'E' then
          let (eneg, r2) :=
            match r with
            | '+' :: r2 => (false, r2)
            | '-' :: r2 => (true, r2)
            | r2 => (false, r2)
          let (ev, ec, r3) := jsonDigits 0 0 r2
          if ec = 0 then (Option.none, rest2)
          else (some (if eneg then -(ev : ℤ) else (ev : ℤ)), r3)
        else (some 0, rest2)
      | [] => (some 0, rest2)
    match eres with
    | Option.none => none
    | some ex =>
      if ¬hasFrac ∧ ex = 0 ∧ rest2 = rest3 then
        some (.int (if neg then -(ip : ℤ) else (ip : ℤ)), rest3)
      else
        let mant : ℚ := ((ip : ℚ) * (10 : ℚ) ^ fc + (fp : ℚ)) / (10 : ℚ) ^ fc
        let q := mant * (10 : ℚ) ^ ex
        some (.float (.finite (if neg then -q else q)), rest3)

mutual

/-- One JSON value, leading whitespace allowed.  Fuel bounds nesting. -/
def jsonValue : Nat → List Char → Option (PyValue × List Char)
  | 0, _ => none
  | fuel + 1, l =>
    match jsonSkip l with
    | [] => none
    | c :: rest =>
      if c = 'n' then (expectL "ull".data rest).map (fun r => (.none, r))
      else if c = 't' then (expectL "rue".data rest).map (fun r => (.bool true, r))
      else if c = 'f' then (expectL "alse".data rest).map (fun r => (.bool false, r))
      else if c = 'N' then (expectL "aN".data rest).map (fun r => (.float .nan, r))
      else if c = 'I' then
        (expectL "nfinity".data rest).map (fun r => (.float .inf, r))
      else if c = '-' then
        match rest with
        | 'I' :: rest2 =>
          (expectL "nfinity".data rest2).map (fun r => (.float .neginf, r))
        | _ => jsonNumber true rest
      else if c = '"' then
        (jsonStringAux [] rest).map (fun (s, r) => (.str s, r))
      else if c = '[' then
        match jsonSkip rest with
        | ']' :: r => some (.list [], r)
        | r => (jsonElems fuel r).map (fun (xs, r2) => (.list xs, r2))
      else if c = '{' then
        match jsonSkip rest with
        | '}' :: r => some (.dict [], r)
        | r => (jsonMembers fuel r).map (fun (es, r2) => (.dict es, r2))
      else jsonNumber false (c :: rest)

/-- `value (',' value)*` followed by `]`. -/
def jsonElems : Nat → List Char → Option (List PyValue × List Char)
  | 0, _ => none
  | fuel + 1, l => do
    let (v, rest) ← jsonValue (fuel + 1) l
    match jsonSkip rest with
    | ',' :: r =>
      let (xs, r2) ← jsonElems fuel r
      some (v :: xs, r2)
    | ']' :: r => some ([v], r)
    | _ => none

/-- `string ':' value (',' pair)*` followed by `}`. -/
def jsonMembers : Nat → List Char → Option (List (String × PyValue) × List Char)
  | 0, _ => none
  | fuel + 1, l =>
    match jsonSkip l with
    | '"' :: rest => do
      let (k, rest2) ← jsonStringAux [] rest
      match jsonSkip rest2 with
      | ':' :: rest3 => do
        let (v, rest4) ← jsonValue (fuel + 1) rest3
        match jsonSkip rest4 with
        | ',' :: r =>
          let (es, r2) ← jsonMembers fuel r
          some ((k, v) :: es, r2)
        | '}' :: r => some ([(k, v)], r)
        | _ => none
      | _ => none
    | _ => none

end

/-- Model of `simplejson.loads`: `none` means the call raises a
`JSONDecodeError` (a `ValueError` subclass). -/
def jsonLoads (s : String) : Option PyValue :=
  match jsonValue (s.data.length + 1) s.data with
  | some (v, rest) => if jsonSkip rest = [] then some v else none
  | Option.none => none

/-! ## `doctor/parsers.py`

Each parser function takes the raw string and returns
* `.ok (some v)` — parsed as this type,
* `.ok none`    — "not this type" (the Python functions return `None`),
* `.error ()`   — the Python function raised `TypeError`/`ValueError`
  (swallowed by the `parse_value` loop).
-/

/-- `_parse_boolean`: case-insensitive `"true"`/`"false"`, else `None`. -/
def parseBoolean (value : String) : Except Unit (Option PyValue) :=
  let v := pyLower value
  if v = "true" then .ok (some (.bool true))
  else if v = "false" then .ok (some (.bool false))
  else .ok none

/-- The `int` entry of `_parser_funcs` (CPython `int(value)`). -/
def parseInteger (value : String) : Except Unit (Option PyValue) :=
  match pyInt value with
  | some n => .ok (some (.int n))
  | Option.none => .error ()

/-- The `float` entry of `_parser_funcs` (CPython `float(value)`). -/
def parseNumber (value : String) : Except Unit (Option PyValue) :=
  match pyFloat value with
  | some x => .ok (some (.float x))
  | Option.none => .error ()

/-- `_parse_array`: `None` unless the left-stripped value starts with `[`,
in which case it must parse as JSON (a parse failure propagates as an
exception, which `parse_value` swallows). -/
def parseArray (value : String) : Except Unit (Option PyValue) :=
  let v := lstripL value.data
  if v.headD ' ' ≠ '[' then .ok none
  else
    match jsonLoads ⟨v⟩ with
    | some j => .ok (some j)
    | Option.none => .error ()

/-- `_parse_object`: like `_parse_array` but for `{`. -/
def parseObject (value : String) : Except Unit (Option PyValue) :=
  let v := lstripL value.data
  if v.headD ' ' ≠ '{' then .ok none
  else
    match jsonLoads ⟨v⟩ with
    | some j => .ok (some j)
    | Option.none => .error ()

/-- `_parse_string`: the identity on `str` input (the `bytes` decode branch
is not modelled — `parse_value` rejects non-`str` input first). -/
def parseString (value : String) : Except Unit (Option PyValue) :=
  .ok (some (.str value))

/-- The ordered `_parser_funcs` table: the fixed disambiguation order
boolean, integer, number, array, object, string. -/
def parserFuncs : List (String × (String → Except Unit (Option PyValue))) :=
  [("boolean", parseBoolean),
   ("integer", parseInteger),
   ("number", parseNumber),
   ("array", parseArray),
   ("object", parseObject),
   ("string", parseString)]

/-- A `doctor` error, as raised by the modelled operations. -/
inductive DoctorErr where
  | parseError (msg : String)
deriving DecidableEq

/-- Python `', '.join(...)`. -/
def joinComma : List String → String
  | [] => ""
  | [s] => s
  | s :: rest => s ++ ", " ++ joinComma rest

/-- The loop body of `parse_value`: try each `(type, parser)` pair in table
order, skipping types not in `allowed_types`; a parser returning a
non-`None` value wins; parser exceptions are swallowed. -/
def parseValueLoop (value : String) (allowed_types : List String) :
    List (String × (String → Except Unit (Option PyValue))) →
      Option (String × PyValue)
  | [] => Option.none
  | (t, p) :: rest =>
    if t ∈ allowed_types then
      match p value with
      | .ok (some v) => some (t, v)
      | .ok Option.none => parseValueLoop value allowed_types rest
      | .error () => parseValueLoop value allowed_types rest
    else parseValueLoop value allowed_types rest

/-- `parse_value(value, allowed_types, name)` from `doctor/parsers.py`.
The input is a `str` (the source raises `ValueError` for non-`str` input
before anything else; that guard is outside the model's value space). -/
def parse_value (value : String) (allowed_types : List String)
    (name : String := "value") : Except DoctorErr (String × PyValue) :=
  if "null" ∈ allowed_types ∧ value = "" then .ok ("null", .none)
  else
    match parseValueLoop value allowed_types parserFuncs with
    | some r => .ok r
    | Option.none =>
      .error (.parseError
        (name ++ " must be a valid type (" ++ joinComma allowed_types ++ ")"))

/-! ## Facts about digit strings and `parse_value` (claim C1) -/

/-- Base-10 value of a digit list. -/
def digitsValue (l : List Char) : Nat :=
  l.foldl (fun a c => 10 * a + digitVal c) 0

theorem digit_not_space {c : Char} (h : pyIsDigit c = true) :
    pySpace c = false := by
  simp only [pyIsDigit, Bool.and_eq_true, decide_eq_true_eq] at h
  simp only [pySpace, Bool.or_eq_false_iff, decide_eq_false_iff_not]
  omega

theorem digit_ne_plus {c : Char} (h : pyIsDigit c = true) : c ≠ '+' := by
  rintro rfl; exact absurd h (by decide)

theorem digit_ne_minus {c : Char} (h : pyIsDigit c = true) : c ≠ '-' := by
  rintro rfl; exact absurd h (by decide)

theorem dropWhile_pySpace_of_digits (l : List Char)
    (h : ∀ c ∈ l, pyIsDigit c) : l.dropWhile pySpace = l := by
  cases l with
  | nil => rfl
  | cons c rest =>
    rw [List.dropWhile_cons, digit_not_space (h c (List.mem_cons_self c rest))]
    simp

theorem stripL_of_digits (l : List Char) (h : ∀ c ∈ l, pyIsDigit c) :
    stripL l = l := by
  unfold stripL
  rw [dropWhile_pySpace_of_digits l h,
    dropWhile_pySpace_of_digits l.reverse (fun c hc => h c (List.mem_reverse.mp hc)),
    List.reverse_reverse]

theorem pyDigitsAux_of_digits (l : List Char) (h : ∀ c ∈ l, pyIsDigit c) :
    ∀ acc, pyDigitsAux acc l =
      some (l.foldl (fun a c => 10 * a + digitVal c) acc) := by
  induction l with
  | nil => intro acc; simp [pyDigitsAux]
  | cons c rest ih =>
    intro acc
    have hc := h c (List.mem_cons_self c rest)
    rw [pyDigitsAux.eq_def]
    simp only [hc, if_true]
    rw [ih (fun x hx => h x (List.mem_cons_of_mem c hx))]
    simp

theorem pyInt_of_digits (s : String) (hne : s.data ≠ [])
    (h : ∀ c ∈ s.data, pyIsDigit c) :
    pyInt s = some (Int.ofNat (digitsValue s.data)) := by
  unfold pyInt
  rw [stripL_of_digits s.data h]
  match hl : s.data with
  | [] => exact absurd hl hne
  | c :: rest =>
    have hc : pyIsDigit c := h c (hl ▸ List.mem_cons_self c rest)
    have hrest : ∀ x ∈ rest, pyIsDigit x :=
      fun x hx => h x (hl ▸ List.mem_cons_of_mem c hx)
    rw [pyIntL, if_neg (digit_ne_plus hc), if_neg (digit_ne_minus hc)]
    rw [pyDigits, if_pos hc, pyDigitsAux_of_digits rest hrest (digitVal c)]
    simp [digitsValue, digitVal]

/-- Claim C1: for every non-empty string of ASCII digits and every listing
of the allowed types `integer`, `number`, `string` (in any caller order),
`parse_value` returns kind `integer` with the base-10 value — never
`number` or `string` — because the precedence is fixed by the
`_parser_funcs` table, not by the caller's declaration order. -/
theorem parse_value_digits_integer (s : String) (allowed : List String)
    (name : String) (hne : s.data ≠ []) (hdig : ∀ c ∈ s.data, pyIsDigit c)
    (hperm : allowed.Perm ["integer", "number", "string"]) :
    parse_value s allowed name = .ok ("integer", .int (digitsValue s.data)) := by
  have hmem : ∀ t : String, t ∈ allowed ↔ t ∈ ["integer", "number", "string"] :=
    fun t => hperm.mem_iff
  have hnull : "null" ∉ allowed := by rw [hmem]; decide
  have hbool : "boolean" ∉ allowed := by rw [hmem]; decide
  have hint : "integer" ∈ allowed := by rw [hmem]; decide
  have hloop : parseValueLoop s allowed parserFuncs =
      some ("integer", .int (digitsValue s.data)) := by
    have hpi : parseInteger s = .ok (some (.int (digitsValue s.data))) := by
      rw [parseInteger, pyInt_of_digits s hne hdig]
      rfl
    rw [parserFuncs, parseValueLoop, if_neg hbool, parseValueLoop, if_pos hint,
      hpi]
  rw [parse_value, if_neg (fun hcontra => hnull hcontra.1), hloop]


/-- Witness for C1 at the concrete input `"42"` with the allowed types
listed in a non-priority order. -/
theorem parse_value_digits_integer_witness :
    parse_value "42" ["string", "number", "integer"] "value" =
      .ok ("integer", .int 42) :=
  parse_value_digits_integer "42" ["string", "number", "integer"] "value"
    (by decide) (by decide) (by decide)

/-! ## `doctor/types.py` — the TypeDefinition framework

A `TypeSystemError` carries a `detail` which is either a formatted message
string (scalar constraint failures) or a mapping from field name / index to
a nested detail (`Object`/`Array` aggregation).  The models below return the
`detail` on failure.

Python class attributes (`description`, `minimum`, …) become structure
fields; `type('X', (X,), kwargs)` parameterization becomes filling in the
structure. -/

/-- A key of an aggregate error mapping: a property name (`Object`) or an
element index (`Array`). -/
inductive ErrKey where
  | str (s : String)
  | idx (n : Nat)
deriving DecidableEq

/-- The `detail` payload of a `TypeSystemError`. -/
inductive ErrDetail where
  | text (msg : String)
  | agg (entries : List (ErrKey × ErrDetail))

/-- `String` kind (`doctor.types.String`).  The `pattern` and `format`
class attributes default to `None` in the source and are not exercised by
any claim; the modelled family keeps them at their defaults (regex matching
and date parsing are external to the embedding).  The `description`
attribute is carried to show where it is — and is not — consulted. -/
structure StringType where
  description : Option String := Option.none
  min_length : Option Nat := Option.none
  max_length : Option Nat := Option.none
  trim_whitespace : Bool := true
  exampleVal : Option String := Option.none

/-- `String.__new__` for a `str` argument (on a `str`, `str.__new__` is the
identity).  Note that `SuperType.__init__` — and with it the description
check — never runs for `String`: `__new__` returns a plain `str`, so
`type.__call__` skips `__init__`. -/
def stringValidate (td : StringType) (s : String) : Except ErrDetail String :=
  let value := if td.trim_whitespace then pyStrip s else s
  match td.min_length with
  | some m =>
    if value.length < m then
      if m = 1 then .error (.text "Must not be blank.")
      else .error (.text ("Must have at least " ++ toString m ++ " characters."))
    else
      match td.max_length with
      | some mx =>
        if mx < value.length then
          .error (.text ("Must have no more than " ++ toString mx ++ " characters."))
        else .ok value
      | Option.none => .ok value
  | Option.none =>
    match td.max_length with
    | some mx =>
      if mx < value.length then
        .error (.text ("Must have no more than " ++ toString mx ++ " characters."))
      else .ok value
    | Option.none => .ok value

/-- `Integer` kind (`doctor.types.Integer`, via `_NumericType`).  The
bound/multiple attributes are modelled as integers (the usual
parameterization; a float-valued `multiple_of` takes the reciprocal-product
branch of the source, which no claim exercises). -/
structure IntegerType where
  description : Option String := Option.none
  minimum : Option Int := Option.none
  maximum : Option Int := Option.none
  exclusive_minimum : Bool := false
  exclusive_maximum : Bool := false
  multiple_of : Option Int := Option.none
  exampleVal : Option PyValue := Option.none

/-- Failures of `_NumericType.__new__`: a `TypeSystemError` detail, or an
exception that the source does *not* catch (`OverflowError` from
`int(float('inf'))`, `ZeroDivisionError` from `value % 0`) and therefore
propagates past the validator. -/
inductive NumErr where
  | ts (d : ErrDetail)
  | overflowError
  | zeroDivisionError

/-- `int.__new__(cls, x)`: CPython `int(x)` for the modelled value space. -/
def pyIntOf : PyValue → Except NumErr Int
  | .int n => .ok n
  | .bool b => .ok (if b then 1 else 0)
  | .float (.finite q) => .ok (if q < 0 then -((-q).floor) else q.floor)
  | .float .nan => .error (.ts (.text "Must be a valid number."))
  | .float .inf | .float .neginf => .error .overflowError
  | .str s =>
    match pyInt s with
    | some n => .ok n
    | Option.none => .error (.ts (.text "Must be a valid number."))
  | _ => .error (.ts (.text "Must be a valid number."))

/-- The `minimum` / `exclusive_minimum` check of `_NumericType.__new__`. -/
def intMinCheck : Option Int → Bool → Int → Option NumErr
  | Option.none, _, _ => Option.none
  | some m, exclusive, value =>
    if exclusive then
      if value ≤ m then
        some (.ts (.text ("Must be greater than " ++ toString m ++ ".")))
      else Option.none
    else
      if value < m then
        some (.ts (.text ("Must be greater than or equal to " ++
          toString m ++ ".")))
      else Option.none

/-- The `maximum` / `exclusive_maximum` check of `_NumericType.__new__`. -/
def intMaxCheck : Option Int → Bool → Int → Option NumErr
  | Option.none, _, _ => Option.none
  | some m, exclusive, value =>
    if exclusive then
      if m ≤ value then
        some (.ts (.text ("Must be less than " ++ toString m ++ ".")))
      else Option.none
    else
      if m < value then
        some (.ts (.text ("Must be less than or equal to " ++
          toString m ++ ".")))
      else Option.none

/-- The `multiple_of` check of `_NumericType.__new__` for an integer
multiple (`value % multiple_of`); `value % 0` raises `ZeroDivisionError`,
which the source does not catch. -/
def intMulCheck : Option Int → Int → Option NumErr
  | Option.none, _ => Option.none
  | some k, value =>
    if k = 0 then some .zeroDivisionError
    else if value % k ≠ 0 then
      some (.ts (.text ("Must be a multiple of " ++ toString k ++ ".")))
    else Option.none

/-- `Integer.__new__` = `_NumericType.__new__` with `native_type = int`:
conversion, the (vacuous for `int`) finiteness check, bounds, and
`multiple_of`; the checks fail fast, in source order. -/
def integerValidate (td : IntegerType) (v : PyValue) : Except NumErr PyValue :=
  match pyIntOf v with
  | .error e => .error e
  | .ok value =>
    -- math.isfinite(value) is always true for an int
    match intMinCheck td.minimum td.exclusive_minimum value with
    | some e => .error e
    | Option.none =>
      match intMaxCheck td.maximum td.exclusive_maximum value with
      | some e => .error e
      | Option.none =>
        match intMulCheck td.multiple_of value with
        | some e => .error e
        | Option.none => .ok (.int value)

/-- `Boolean` kind (`doctor.types.Boolean`). -/
structure BooleanType where
  description : Option String := Option.none
  exampleVal : Option Bool := Option.none

/-- The string-forms table of `Boolean.__new__`. -/
def boolTable (s : String) : Option Bool :=
  if s = "true" then some true
  else if s = "false" then some false
  else if s = "on" then some true
  else if s = "off" then some false
  else if s = "1" then some true
  else if s = "0" then some false
  else if s = "" then some false
  else Option.none

/-- `Boolean.__new__`: a `str` argument goes through the lowered forms
table (`KeyError` becomes the `'type'` error); any other value is coerced
by native truthiness `bool(value)`.  The description is never consulted:
`__new__` returns a plain `bool`, so `SuperType.__init__` is skipped. -/
def booleanValidate (td : BooleanType) (v : PyValue) : Except ErrDetail PyValue :=
  match v with
  | .str s =>
    match boolTable (pyLower s) with
    | some b => .ok (.bool b)
    | Option.none => .error (.text "Must be a valid boolean.")
  | _ => .ok (.bool (pyTruthy v))

/-- `Enum` kind (`doctor.types.Enum`). -/
structure EnumType where
  description : Option String := Option.none
  enum : List String := []
  exampleVal : Option String := Option.none

/-- `Enum.__new__`: membership in the allowed values (a non-`str` value is
never equal to any of the `str` members).  Returns the value unchanged.
The description is never consulted (`__new__` returns the plain value). -/
def enumValidate (td : EnumType) (v : PyValue) : Except ErrDetail PyValue :=
  match v with
  | .str s => if s ∈ td.enum then .ok (.str s) else .error (.text "Must be a valid choice.")
  | _ => .error (.text "Must be a valid choice.")

/-! ## `Object` and `Array` kinds

A child type of an `Object` property (or of `Array.items`) is any callable
TypeDefinition: `child_schema(item)` either returns the coerced value or
raises a `TypeSystemError`, whose `detail` the composite validator records.
(A child raising something *other* than `TypeSystemError` — e.g. an
`Object` child missing its description — would propagate uncaught in the
source; such children are outside the `ChildType` value space.) -/

/-- A property/item type as seen by `Object`/`Array` validation:
`default` models the optional `default` class attribute (`hasattr(child,
'default')`), `isInst` models `isinstance(item, child_schema)` (a plain
Python value is never an instance of a synthesized type class, but the
field is kept so the source's check is represented), and `coerce` models
`child_schema(item)`. -/
structure ChildType where
  default : Option PyValue := Option.none
  isInst : PyValue → Bool := fun _ => false
  coerce : PyValue → Except ErrDetail PyValue

/-- `Object` kind (`doctor.types.Object`). -/
structure ObjectType where
  description : Option String := Option.none
  properties : List (String × ChildType) := []
  required : List String := []
  additional_properties : Bool := true
  exampleVal : Option PyValue := Option.none

/-- How `Object` validation can fail: `MissingDescriptionError` from
`SuperType.__init__` (a `ValueError`, not a `TypeSystemError`), or a
`TypeSystemError` detail. -/
inductive ObjFailure where
  | missingDescription
  | ts (d : ErrDetail)

/-- Python `dict` item assignment on the association-list model: replace in
place when the key exists, append otherwise. -/
def dictSet : List (String × PyValue) → String → PyValue → List (String × PyValue)
  | [], key, v => [(key, v)]
  | (k, w) :: rest, key, v =>
    if k = key then (k, v) :: rest else (k, w) :: dictSet rest key v

/-- The property loop of `Object.__init__`: for each declared property,
read the input (`value[key]` — reads are unaffected by earlier iterations,
which only touch *other* property keys), fill defaults, record `required`
errors, and coerce present values, collecting per-key error details in
order.  Errors are appended; the error dict never sees a key twice because
property keys are unique. -/
def objectPropsGo (required : List String) (input : List (String × PyValue)) :
    List (String × ChildType) → List (String × PyValue) →
      List (ErrKey × ErrDetail) →
      List (String × PyValue) × List (ErrKey × ErrDetail)
  | [], self, errors => (self, errors)
  | (key, child) :: rest, self, errors =>
    match List.lookup key input with
    | Option.none =>
      match child.default with
      | some d => objectPropsGo required input rest (dictSet self key d) errors
      | Option.none =>
        if key ∈ required then
          objectPropsGo required input rest self
            (errors ++ [(.str key, .text "This field is required.")])
        else objectPropsGo required input rest self errors
    | some item =>
      if child.isInst item then
        objectPropsGo required input rest (dictSet self key item) errors
      else
        match child.coerce item with
        | .ok v => objectPropsGo required input rest (dictSet self key v) errors
        | .error d =>
          objectPropsGo required input rest self (errors ++ [(.str key, d)])

/-- The `additional_properties = False` loop of `Object.__init__`: one
`'additional_properties'` error per key of `value` (= `self`) outside the
declared properties.  (The `TypeSystemError` constructor discards the
passed `'{key} not in {properties}'` detail, because `cls`/`code` are also
given; the recorded detail is the formatted `errors['additional_properties']`
message.) -/
def addlErrorsGo (propKeys : List String) : List String → List (ErrKey × ErrDetail)
  | [] => []
  | k :: ks =>
    if k ∈ propKeys then addlErrorsGo propKeys ks
    else (.str k, .text "Additional properties are not allowed.") ::
      addlErrorsGo propKeys ks

/-- `Object.__init__` for a mapping input.  `dict.__init__` populates `self`
with the input items, then `SuperType.__init__` checks the description
(at *use* time — this is the only kind whose construction runs
`SuperType.__init__`); the `invalid_key` check is vacuous here because the
modelled mappings are string-keyed; then properties are validated, and with
`additional_properties = True` the copy-through loop is a no-op since
`value` aliases `self`, which already contains every input key. -/
def objectValidate (td : ObjectType) (input : List (String × PyValue)) :
    Except ObjFailure (List (String × PyValue)) :=
  match td.description with
  | Option.none => .error .missingDescription
  | some _ =>
    let r := objectPropsGo td.required input td.properties input []
    let errs :=
      if td.additional_properties then r.2
      else r.2 ++ addlErrorsGo (td.properties.map Prod.fst) (r.1.map Prod.fst)
    if errs.isEmpty then .ok r.1 else .error (.ts (.agg errs))

/-- The `items` attribute of `Array`: absent, a single type for every
element, or a positional list of types. -/
inductive ItemsSpec where
  | noItems
  | single (t : ChildType)
  | posList (ts : List ChildType)

/-- `Array` kind (`doctor.types.Array`).  The description is carried but
never consulted: `Array.__init__` never calls `SuperType.__init__`. -/
structure ArrayType where
  description : Option String := Option.none
  items : ItemsSpec := .noItems
  additional_items : Bool := false
  min_items : Nat := 0
  max_items : Option Nat := Option.none
  unique_items : Bool := false
  exampleVal : Option PyValue := Option.none

/-- `list(*args)` plus the up-front `isinstance(args[0], (str, bytes))`
rejection: a string never iterates as an array; a dict iterates over its
keys; scalars raise `TypeError`. -/
def listOf : PyValue → Except ErrDetail (List PyValue)
  | .str _ => .error (.text "Must be a list.")
  | .list xs => .ok xs
  | .dict entries => .ok (entries.map (fun kv => PyValue.str kv.1))
  | _ => .error (.text "Must be a list.")

/-- Element coercion for one position: positional `items` lists only apply
to positions they cover (`pos < len(self.items)`). -/
def coerceAt (items : ItemsSpec) (pos : Nat) (item : PyValue) :
    Except ErrDetail PyValue :=
  match items with
  | .posList ts =>
    match ts.get? pos with
    | some t => t.coerce item
    | Option.none => .ok item
  | .single t => t.coerce item
  | .noItems => .ok item

/-- The element loop of `Array.__init__`: coerce each element, enforce
`unique_items` against the seen-set of already-coerced elements (Python
uses a `set`; the model uses a list with `PyValue.beq` membership), append
successes, and record per-index error details. -/
def arrayLoopGo (items : ItemsSpec) (unique : Bool) :
    List PyValue → Nat → List PyValue → List PyValue →
      List (ErrKey × ErrDetail) → List PyValue × List (ErrKey × ErrDetail)
  | [], _, _, out, errors => (out, errors)
  | x :: xs, pos, seen, out, errors =>
    match coerceAt items pos x with
    | .error d =>
      arrayLoopGo items unique xs (pos + 1) seen out (errors ++ [(.idx pos, d)])
    | .ok v =>
      if unique then
        if seen.contains v then
          arrayLoopGo items unique xs (pos + 1) seen out
            (errors ++ [(.idx pos, .text "This item is not unique.")])
        else arrayLoopGo items unique xs (pos + 1) (seen ++ [v]) (out ++ [v]) errors
      else arrayLoopGo items unique xs (pos + 1) seen (out ++ [v]) errors

/-- The tuple-like positional count check of `Array.__init__`, guarded by
`isinstance(self.items, list) and len(self.items) > 1` in the source. -/
def arrayPosCheck : ItemsSpec → Bool → List PyValue → Option ErrDetail
  | .posList ts, additional_items, value =>
    if 1 < ts.length then
      if value.length < ts.length then some (.text "Not enough items.")
      else if ts.length < value.length ∧ ¬additional_items then
        some (.text "Too many items.")
      else Option.none
    else Option.none
  | _, _, _ => Option.none

/-- The `max_items` half of the count constraints. -/
def maxItemsCheck : Option Nat → Nat → Option ErrDetail
  | Option.none, _ => Option.none
  | some m, len =>
    if m < len then some (.text "Too many items.") else Option.none

/-- The `min_items` / `max_items` constraint check of `Array.__init__`. -/
def arrayCountCheck (td : ArrayType) (value : List PyValue) : Option ErrDetail :=
  if value.length < td.min_items then some (.text "Not enough items.")
  else maxItemsCheck td.max_items value.length

/-- `Array.__init__`.  Order as in the source: type check, the tuple-like
positional count checks (**only when the positional list has more than one
type** — `len(self.items) > 1`), then the `min_items`/`max_items`
constraints, then the element loop with error aggregation. -/
def arrayValidate (td : ArrayType) (v : PyValue) :
    Except ErrDetail (List PyValue) :=
  match listOf v with
  | .error e => .error e
  | .ok value =>
    match arrayPosCheck td.items td.additional_items value with
    | some e => .error e
    | Option.none =>
      match arrayCountCheck td value with
      | some e => .error e
      | Option.none =>
        let r := arrayLoopGo td.items td.unique_items value 0 [] [] []
        if r.2.isEmpty then .ok r.1 else .error (.agg r.2)

/-- An `Object`/`Array` child built from an `Integer` TypeDefinition.  The
two uncatchable branches (`OverflowError`/`ZeroDivisionError`) propagate
uncaught in the source; they are unreachable for the definitions used in
this development (no infinite inputs, no zero `multiple_of`). -/
def ChildType.ofInteger (td : IntegerType) : ChildType where
  coerce := fun v =>
    match integerValidate td v with
    | .ok x => .ok x
    | .error (.ts d) => .error d
    | .error _ => .error (.text "uncaught exception")

/-- A child built from a `Boolean` TypeDefinition. -/
def ChildType.ofBoolean (td : BooleanType) : ChildType where
  coerce := booleanValidate td

/-- A child built from an `Enum` TypeDefinition. -/
def ChildType.ofEnum (td : EnumType) : ChildType where
  coerce := enumValidate td

/-! ## Claims about the scalar kinds (C10, C3, C8) and `Array` counts (C6) -/

/-- Claim C10: `Boolean` validation never raises for non-`str` values — they
are coerced by native truthiness (`bool(value)`); only a `str` outside the
recognized forms `true`/`false`/`on`/`off`/`1`/`0`/`""` (case-insensitive)
raises the `'Must be a valid boolean.'` type error, and a recognized form
maps through the table. -/
theorem boolean_truthiness_coercion :
    (∀ (td : BooleanType) (v : PyValue), v.isStr = false →
      booleanValidate td v = .ok (.bool (pyTruthy v))) ∧
    (∀ (td : BooleanType) (s : String), boolTable (pyLower s) = Option.none →
      booleanValidate td (.str s) = .error (.text "Must be a valid boolean.")) ∧
    (∀ (td : BooleanType) (s : String) (b : Bool),
      boolTable (pyLower s) = some b →
      booleanValidate td (.str s) = .ok (.bool b)) := by
  refine ⟨fun td v hv => ?_, fun td s hs => ?_, fun td s b hb => ?_⟩
  · cases v <;> first | rfl | exact absurd hv (by simp [PyValue.isStr])
  · rw [booleanValidate, hs]
  · rw [booleanValidate, hb]

/-- Witness for C10: the integer `2` and a non-empty list are truthy, the
integer `0` and an empty mapping falsy, an unrecognized string raises, and
`"On"` maps through the table. -/
theorem boolean_truthiness_coercion_witness :
    booleanValidate {} (.int 2) = .ok (.bool true) ∧
    booleanValidate {} (.int 0) = .ok (.bool false) ∧
    booleanValidate {} (.list [.int 1]) = .ok (.bool true) ∧
    booleanValidate {} (.dict []) = .ok (.bool false) ∧
    booleanValidate {} (.str "maybe") = .error (.text "Must be a valid boolean.") ∧
    booleanValidate {} (.str "On") = .ok (.bool true) :=
  ⟨boolean_truthiness_coercion.1 {} (.int 2) rfl,
   boolean_truthiness_coercion.1 {} (.int 0) rfl,
   boolean_truthiness_coercion.1 {} (.list [.int 1]) rfl,
   boolean_truthiness_coercion.1 {} (.dict []) rfl,
   boolean_truthiness_coercion.2.1 {} "maybe" rfl,
   boolean_truthiness_coercion.2.2 {} "On" true rfl⟩

/-- Counterexample to claim C3: a `String` TypeDefinition with no
description happily validates a value — `MissingDescriptionError` is not
raised at definition time *or* at use time for this kind, because
`String.__new__` returns a plain `str` and `SuperType.__init__` never
runs. -/
theorem missing_description_string_still_validates :
    stringValidate { description := Option.none } "foo" = .ok "foo" := rfl

/-- Amended C3: the missing-description check lives in
`SuperType.__init__`, so it fires at *use* time and only for `Object`
(whose construction is the only one that runs `SuperType.__init__`);
the `String`, `Integer`, `Boolean` and `Enum` constructors return plain
native values (skipping `__init__`), and `Array.__init__` never calls
`super().__init__()`, so validation through those kinds is entirely
independent of the description. -/
theorem missing_description_object_use_time_only :
    (∀ (props : List (String × ChildType)) (required : List String)
      (addl : Bool) (ex : Option PyValue) (input : List (String × PyValue)),
      objectValidate { description := Option.none, properties := props,
                       required := required, additional_properties := addl,
                       exampleVal := ex } input = .error .missingDescription) ∧
    (∀ (td : StringType) (d : Option String) (s : String),
      stringValidate { td with description := d } s = stringValidate td s) ∧
    (∀ (td : IntegerType) (d : Option String) (v : PyValue),
      integerValidate { td with description := d } v = integerValidate td v) ∧
    (∀ (td : BooleanType) (d : Option String) (v : PyValue),
      booleanValidate { td with description := d } v = booleanValidate td v) ∧
    (∀ (td : EnumType) (d : Option String) (v : PyValue),
      enumValidate { td with description := d } v = enumValidate td v) ∧
    (∀ (td : ArrayType) (d : Option String) (v : PyValue),
      arrayValidate { td with description := d } v = arrayValidate td v) := by
  refine ⟨fun _ _ _ _ _ => rfl, fun td d s => ?_, fun td d v => ?_,
    fun td d v => ?_, fun td d v => ?_, fun td d v => ?_⟩ <;> cases td <;> rfl

/-- Counterexample to claim C8: an `Integer` TypeDefinition whose declared
example violates its own `minimum` — validating the example raises the
`minimum` constraint error instead of round-tripping.  Nothing in the
source checks that declared examples self-validate. -/
theorem integer_example_fails_own_minimum :
    ({ description := some "An int", minimum := some 10,
        exampleVal := some (.int 5) } : IntegerType).exampleVal = some (.int 5) ∧
    integerValidate
      { description := some "An int", minimum := some 10,
        exampleVal := some (.int 5) } (.int 5) =
      .error (.ts (.text "Must be greater than or equal to 10.")) :=
  ⟨rfl, rfl⟩

/-- The declared example satisfies the type's declared constraints
(formalized for `Integer`): within the `minimum`/`maximum` bounds
(strictly, when the exclusive flag is set) and a multiple of any non-zero
`multiple_of`. -/
def IntegerType.admits (td : IntegerType) (e : Int) : Prop :=
  (∀ m, td.minimum = some m → (if td.exclusive_minimum then m < e else m ≤ e)) ∧
  (∀ m, td.maximum = some m → (if td.exclusive_maximum then e < m else e ≤ m)) ∧
  (∀ k, td.multiple_of = some k → k ≠ 0 ∧ e % k = 0)

/-- Amended C8: example round-tripping holds only *conditionally* — when
the declared example itself satisfies the type's declared constraints.
Formalized for `Integer` kinds (an integer example meeting the declared
bounds and multiple validates to itself) and `Boolean` kinds (a declared
boolean example always round-trips, the kind having no constraints). -/
theorem example_roundtrip_when_constraints_hold :
    (∀ (td : IntegerType) (e : Int), td.exampleVal = some (.int e) →
      td.admits e → integerValidate td (.int e) = .ok (.int e)) ∧
    (∀ (td : BooleanType) (b : Bool), td.exampleVal = some b →
      booleanValidate td (.bool b) = .ok (.bool b)) := by
  constructor
  · intro td e hex hadm
    obtain ⟨hmin, hmax, hmul⟩ := hadm
    have h1 : intMinCheck td.minimum td.exclusive_minimum e = Option.none := by
      rcases hm : td.minimum with _ | m
      · rfl
      · have hb := hmin m hm
        rw [intMinCheck]
        split_ifs at hb ⊢ <;> first | rfl | omega
    have h2 : intMaxCheck td.maximum td.exclusive_maximum e = Option.none := by
      rcases hm : td.maximum with _ | m
      · rfl
      · have hb := hmax m hm
        rw [intMaxCheck]
        split_ifs at hb ⊢ <;> first | rfl | omega
    have h3 : intMulCheck td.multiple_of e = Option.none := by
      rcases hk : td.multiple_of with _ | k
      · rfl
      · obtain ⟨hk0, hkd⟩ := hmul k hk
        rw [intMulCheck, if_neg hk0, if_neg (fun h => h hkd)]
    rw [integerValidate]
    simp only [pyIntOf, h1, h2, h3]
  · intro td b hex
    exact boolean_truthiness_coercion.1 td (.bool b) rfl

/-- Witness for C8 (amended): a bounded `Integer` whose example `45` lies
inside `[1, 120]` and a `Boolean` with example `true` both round-trip. -/
theorem example_roundtrip_when_constraints_hold_witness :
    integerValidate { description := some "age", minimum := some 1,
                      maximum := some 120,
                      exampleVal := some (.int 45) } (.int 45) =
      .ok (.int 45) ∧
    booleanValidate { description := some "flag", exampleVal := some true }
      (.bool true) = .ok (.bool true) :=
  ⟨example_roundtrip_when_constraints_hold.1 _ 45 rfl
    ⟨by intro m hm; cases hm; decide, by intro m hm; cases hm; decide,
     by intro k hk; cases hk⟩,
   example_roundtrip_when_constraints_hold.2 _ true rfl⟩

/-- Counterexample to claim C6: an `Array` whose `items` is a positional
list of exactly **one** type performs no positional count checks at all —
the source guards them with `len(self.items) > 1` — so an empty input list
validates fine (no `min_items` error). -/
theorem array_one_positional_type_no_count_check :
    arrayValidate
      { description := some "a",
        items := .posList [ChildType.ofInteger { description := some "i" }] }
      (.list []) = .ok [] := rfl

/-- Amended C6: the tuple-like count checks apply only when the positional
`items` list has **at least two** types (`len(self.items) > 1`): then fewer
input elements than types is a `min_items` error and more elements than
types without `additional_items` is a `max_items` error.  A one-type
positional list is exempt from both checks. -/
theorem array_positional_count_checks (td : ArrayType) (ts : List ChildType)
    (xs : List PyValue) (hitems : td.items = .posList ts)
    (hlen : 1 < ts.length) :
    (xs.length < ts.length →
      arrayValidate td (.list xs) = .error (.text "Not enough items.")) ∧
    (ts.length < xs.length → td.additional_items = false →
      arrayValidate td (.list xs) = .error (.text "Too many items.")) := by
  constructor
  · intro hx
    have hp : arrayPosCheck td.items td.additional_items xs =
        some (.text "Not enough items.") := by
      rw [hitems, arrayPosCheck, if_pos hlen, if_pos hx]
    rw [arrayValidate]
    simp only [listOf, hp]
  · intro hx haddl
    have hp : arrayPosCheck td.items td.additional_items xs =
        some (.text "Too many items.") := by
      rw [hitems, arrayPosCheck, if_pos hlen,
        if_neg (by omega : ¬xs.length < ts.length),
        if_pos ⟨hx, by simp [haddl]⟩]
    rw [arrayValidate]
    simp only [listOf, hp]

/-- Witness for C6 (amended) at a two-type positional `items` list: one
element is too few, three are too many. -/
theorem array_positional_count_checks_witness :
    arrayValidate
      { description := some "a", additional_items := false,
        items := .posList [ChildType.ofInteger { description := some "i" },
          ChildType.ofInteger { description := some "j" }] }
      (.list [.int 1]) = .error (.text "Not enough items.") ∧
    arrayValidate
      { description := some "a", additional_items := false,
        items := .posList [ChildType.ofInteger { description := some "i" },
          ChildType.ofInteger { description := some "j" }] }
      (.list [.int 1, .int 2, .int 3]) = .error (.text "Too many items.") :=
  ⟨(array_positional_count_checks _ _ _ rfl (by decide)).1 (by decide),
   (array_positional_count_checks _ _ _ rfl (by decide)).2 (by decide) rfl⟩

/-! ## Characterizing `Object`/`Array` error aggregation (claims C4, C5) -/

/-- Whether (and how) one declared property fails on a given input: missing
with no default and required — the `'required'` error; present, not an
instance, and failing coercion — the child's error detail.  Mirrors the
branch structure of the property loop. -/
def propFailure (required : List String) (input : List (String × PyValue))
    (key : String) (child : ChildType) : Option ErrDetail :=
  match List.lookup key input with
  | Option.none =>
    match child.default with
    | some _ => Option.none
    | Option.none =>
      if key ∈ required then some (.text "This field is required.")
      else Option.none
  | some item =>
    if child.isInst item then Option.none
    else
      match child.coerce item with
      | .ok _ => Option.none
      | .error d => some d

/-- The per-key error mapping produced by the property loop: one entry per
failing declared property, in declaration order. -/
def propFailures (td : ObjectType) (input : List (String × PyValue)) :
    List (ErrKey × ErrDetail) :=
  td.properties.filterMap (fun kc =>
    (propFailure td.required input kc.1 kc.2).map (fun d => (ErrKey.str kc.1, d)))

theorem objectPropsGo_errors (required : List String)
    (input : List (String × PyValue)) :
    ∀ (props : List (String × ChildType)) (self : List (String × PyValue))
      (errors : List (ErrKey × ErrDetail)),
      (objectPropsGo required input props self errors).2 =
        errors ++ props.filterMap (fun kc =>
          (propFailure required input kc.1 kc.2).map
            (fun d => (ErrKey.str kc.1, d))) := by
  intro props
  induction props with
  | nil => intro self errors; simp [objectPropsGo]
  | cons kc rest ih =>
    intro self errors
    obtain ⟨key, child⟩ := kc
    simp only [objectPropsGo, List.filterMap_cons]
    rcases hlk : List.lookup key input with _ | item <;>
      simp only [propFailure, hlk]
    · rcases hdef : child.default with _ | d <;> simp only [hdef]
      · by_cases hreq : key ∈ required
        · rw [if_pos hreq, if_pos hreq, ih]
          simp [propFailure]
        · rw [if_neg hreq, if_neg hreq, ih]
          simp [propFailure]
      · rw [ih]; simp [propFailure]
    · by_cases hinst : child.isInst item
      · rw [if_pos hinst, if_pos hinst, ih]
        simp [propFailure]
      · rw [if_neg hinst, if_neg hinst]
        rcases hco : child.coerce item with d | v <;> simp only [hco]
        · rw [ih]; simp [propFailure]
        · rw [ih]; simp [propFailure]

/-- `List.lookup` is unaffected by a `dictSet` at a different key. -/
theorem lookup_dictSet_ne (l : List (String × PyValue)) (key : String)
    (v : PyValue) (k : String) (h : k ≠ key) :
    List.lookup k (dictSet l key v) = List.lookup k l := by
  induction l with
  | nil =>
    simp [dictSet, List.lookup, beq_eq_false_iff_ne.mpr h]
  | cons kw rest ih =>
    obtain ⟨k1, w⟩ := kw
    rw [dictSet]
    by_cases h1 : k1 = key
    · subst h1
      simp [List.lookup, beq_eq_false_iff_ne.mpr h]
    · rw [if_neg h1]
      by_cases h2 : k = k1
      · subst h2; simp [List.lookup]
      · simp [List.lookup, beq_eq_false_iff_ne.mpr h2, ih]

/-- The property loop touches `self` only at declared property keys:
lookups of undeclared keys see the original input. -/
theorem objectPropsGo_lookup_undeclared (required : List String)
    (input : List (String × PyValue)) :
    ∀ (props : List (String × ChildType)) (self : List (String × PyValue))
      (errors : List (ErrKey × ErrDetail)) (k : String),
      k ∉ props.map Prod.fst →
      List.lookup k (objectPropsGo required input props self errors).1 =
        List.lookup k self := by
  intro props
  induction props with
  | nil => intro self errors k hk; simp [objectPropsGo]
  | cons kc rest ih =>
    intro self errors k hk
    obtain ⟨key, child⟩ := kc
    have hk1 : k ≠ key := fun h => hk (by simp [h])
    have hk2 : k ∉ rest.map Prod.fst := fun h => hk (by simp [h])
    simp only [objectPropsGo]
    rcases hlk : List.lookup key input with _ | item <;> simp only []
    · rcases hdef : child.default with _ | d <;> simp only []
      · by_cases hreq : key ∈ required
        · rw [if_pos hreq, ih _ _ _ hk2]
        · rw [if_neg hreq, ih _ _ _ hk2]
      · rw [ih _ _ _ hk2, lookup_dictSet_ne _ _ _ _ hk1]
    · by_cases hinst : child.isInst item
      · rw [if_pos hinst, ih _ _ _ hk2, lookup_dictSet_ne _ _ _ _ hk1]
      · rw [if_neg hinst]
        rcases hco : child.coerce item with d | v <;> simp only []
        · rw [ih _ _ _ hk2]
        · rw [ih _ _ _ hk2, lookup_dictSet_ne _ _ _ _ hk1]

/-- `dictSet` keys: unchanged when the key is present, appended when not. -/
theorem dictSet_map_fst (l : List (String × PyValue)) (key : String)
    (v : PyValue) :
    (dictSet l key v).map Prod.fst =
      if key ∈ l.map Prod.fst then l.map Prod.fst
      else l.map Prod.fst ++ [key] := by
  induction l with
  | nil => simp [dictSet]
  | cons kw rest ih =>
    obtain ⟨k1, w⟩ := kw
    rw [dictSet]
    by_cases h1 : k1 = key
    · subst h1; simp
    · rw [if_neg h1]
      simp only [List.map_cons, ih]
      by_cases hmem : key ∈ rest.map Prod.fst
      · rw [if_pos hmem, if_pos (by simp [hmem])]
      · rw [if_neg hmem, if_neg (by simp [hmem, Ne.symm h1])]
        simp

/-- The input keys outside the declared properties, in input order. -/
def offendingKeys (propKeys ks : List String) : List String :=
  ks.filter (fun k => decide (k ∉ propKeys))

/-- The additional-properties loop produces exactly one entry per key
outside the declared properties. -/
theorem addlErrorsGo_eq (propKeys : List String) :
    ∀ ks : List String,
      addlErrorsGo propKeys ks = (offendingKeys propKeys ks).map
        (fun k => (ErrKey.str k, ErrDetail.text "Additional properties are not allowed.")) := by
  intro ks
  induction ks with
  | nil => simp [addlErrorsGo, offendingKeys]
  | cons k rest ih =>
    rw [addlErrorsGo]
    by_cases hk : k ∈ propKeys
    · rw [if_pos hk, ih]
      simp [offendingKeys, List.filter_cons, hk]
    · rw [if_neg hk, ih]
      simp [offendingKeys, List.filter_cons, hk]

/-- The property loop does not change which undeclared keys `self` has
(defaults only ever add *declared* keys). -/
theorem objectPropsGo_offending (required : List String)
    (input : List (String × PyValue)) (propKeys : List String) :
    ∀ (props : List (String × ChildType)) (self : List (String × PyValue))
      (errors : List (ErrKey × ErrDetail)),
      (∀ kc ∈ props, kc.1 ∈ propKeys) →
      offendingKeys propKeys
          ((objectPropsGo required input props self errors).1.map Prod.fst) =
        offendingKeys propKeys (self.map Prod.fst) := by
  intro props
  induction props with
  | nil => intro self errors hprops; simp [objectPropsGo]
  | cons kc rest ih =>
    intro self errors hprops
    obtain ⟨key, child⟩ := kc
    have hkey : key ∈ propKeys := hprops (key, child) (List.mem_cons_self _ _)
    have hrest : ∀ kc ∈ rest, kc.1 ∈ propKeys :=
      fun kc hkc => hprops kc (List.mem_cons_of_mem _ hkc)
    have hset : ∀ v, offendingKeys propKeys ((dictSet self key v).map Prod.fst) =
        offendingKeys propKeys (self.map Prod.fst) := by
      intro v
      rw [dictSet_map_fst]
      by_cases hmem : key ∈ self.map Prod.fst
      · rw [if_pos hmem]
      · rw [if_neg hmem, offendingKeys, List.filter_append]
        simp [offendingKeys, List.filter_cons, hkey]
    simp only [objectPropsGo]
    rcases hlk : List.lookup key input with _ | item <;> simp only []
    · rcases hdef : child.default with _ | d <;> simp only []
      · by_cases hreq : key ∈ required
        · rw [if_pos hreq, ih _ _ hrest]
        · rw [if_neg hreq, ih _ _ hrest]
      · rw [ih _ _ hrest, hset]
    · by_cases hinst : child.isInst item
      · rw [if_pos hinst, ih _ _ hrest, hset]
      · rw [if_neg hinst]
        rcases hco : child.coerce item with d | v <;> simp only []
        · rw [ih _ _ hrest]
        · rw [ih _ _ hrest, hset]

/-- A non-empty list is not `isEmpty`. -/
theorem isEmpty_false_of_ne_nil {α : Type} (l : List α) (h : l ≠ []) :
    l.isEmpty = false := by
  cases l with
  | nil => exact absurd rfl h
  | cons a as2 => rfl

/-- The per-index error mapping of the element loop for a single `items`
type: one entry per element whose coercion fails, in index order. -/
def elemFailures (t : ChildType) (input : List PyValue) :
    List (ErrKey × ErrDetail) :=
  input.enum.filterMap (fun ix =>
    match t.coerce ix.2 with
    | .ok _ => Option.none
    | .error d => some (.idx ix.1, d))

theorem arrayLoopGo_errors (items : ItemsSpec) :
    ∀ (xs : List PyValue) (pos : Nat) (seen out : List PyValue)
      (errors : List (ErrKey × ErrDetail)),
      (arrayLoopGo items false xs pos seen out errors).2 =
        errors ++ (List.enumFrom pos xs).filterMap (fun ix =>
          match coerceAt items ix.1 ix.2 with
          | .ok _ => Option.none
          | .error d => some (.idx ix.1, d)) := by
  intro xs
  induction xs with
  | nil => intro pos seen out errors; simp [arrayLoopGo, List.enumFrom]
  | cons x rest ih =>
    intro pos seen out errors
    simp only [arrayLoopGo, List.enumFrom, List.filterMap_cons]
    rcases hco : coerceAt items pos x with d | v <;> simp only [hco]
    · rw [ih]; simp
    · rw [if_neg (by simp : ¬(false = true)), ih]

/-- Claim C4: composite validation does not fail fast.  For an `Object`
(default `additional_properties`) in which several declared properties fail
— invalid value or required-but-missing — validation raises exactly one
aggregate error whose per-key mapping is `propFailures`: one entry per
failing property, every declared property attempted.  Likewise an `Array`
with a single `items` type and several failing elements raises one
aggregate error keyed by index with one entry per failing element. -/
theorem composite_error_aggregation :
    (∀ (td : ObjectType) (desc : String) (input : List (String × PyValue)),
      td.description = some desc → td.additional_properties = true →
      2 ≤ (propFailures td input).length →
      objectValidate td input = .error (.ts (.agg (propFailures td input)))) ∧
    (∀ (td : ArrayType) (t : ChildType) (input : List PyValue),
      td.items = .single t → td.unique_items = false →
      td.min_items ≤ input.length →
      (∀ m, td.max_items = some m → input.length ≤ m) →
      2 ≤ (elemFailures t input).length →
      arrayValidate td (.list input) = .error (.agg (elemFailures t input))) := by
  constructor
  · intro td desc input hdesc haddl hlen
    have herr : (objectPropsGo td.required input td.properties input []).2 =
        propFailures td input := by
      rw [objectPropsGo_errors]; simp [propFailures]
    have hne : propFailures td input ≠ [] := by
      intro h; rw [h] at hlen; simp at hlen
    simp only [objectValidate, hdesc, haddl, if_true, herr]
    rw [isEmpty_false_of_ne_nil _ hne]
    simp
  · intro td t input hitems huniq hmin hmax hlen
    have hne : elemFailures t input ≠ [] := by
      intro h; rw [h] at hlen; simp at hlen
    have hloop : (arrayLoopGo td.items td.unique_items input 0 [] [] []).2 =
        elemFailures t input := by
      rw [hitems, huniq, arrayLoopGo_errors]
      simp [elemFailures, List.enum, coerceAt]
    have hpos : arrayPosCheck td.items td.additional_items input =
        Option.none := by rw [hitems]; rfl
    have hcnt : arrayCountCheck td input = Option.none := by
      rw [arrayCountCheck, if_neg (by omega)]
      rcases hm : td.max_items with _ | m
      · rfl
      · have := hmax m hm
        rw [maxItemsCheck, if_neg (by omega)]
    simp only [arrayValidate, listOf, hpos, hcnt, hloop]
    rw [isEmpty_false_of_ne_nil _ hne]
    simp

/-- Witness for C4 at an `Object` with two failing properties (one invalid
value, one required-but-missing) and an `Array` with two failing elements
(indices 1 and 2); in both cases every entry is present in one aggregate. -/
theorem composite_error_aggregation_witness :
    objectValidate
      { description := some "o",
        properties :=
          [("a", ChildType.ofInteger { description := some "i" }),
           ("b", ChildType.ofInteger { description := some "j" }),
           ("c", ChildType.ofInteger { description := some "k" })],
        required := ["b"] }
      [("a", .str "oops"), ("c", .int 3)] =
      .error (.ts (.agg [(.str "a", .text "Must be a valid number."),
        (.str "b", .text "This field is required.")])) ∧
    arrayValidate
      { description := some "a",
        items := .single (ChildType.ofInteger
          { description := some "i", maximum := some 10 }) }
      (.list [.int 1, .int 11, .str "x"]) =
      .error (.agg [(.idx 1, .text "Must be less than or equal to 10."),
        (.idx 2, .text "Must be a valid number.")]) := by
  constructor
  · exact composite_error_aggregation.1 _ "o" _ rfl rfl (by decide)
  · exact composite_error_aggregation.2 _
      (ChildType.ofInteger { description := some "i", maximum := some 10 }) _
      rfl rfl (by decide) (by intro m hm; simp at hm) (by decide)

/-- Claim C5: with `additional_properties = False`, validating a mapping
with keys outside the declared properties raises one aggregate error whose
entries mapped to `'Additional properties are not allowed.'` are exactly
the offending (undeclared) input keys — every property-loop entry is keyed
by a *declared* property, never by an undeclared key; and with
`additional_properties = True`, undeclared keys are copied through
verbatim. -/
theorem additional_properties_exact_offenders :
    (∀ (td : ObjectType) (desc : String) (input : List (String × PyValue)),
      td.description = some desc → td.additional_properties = false →
      offendingKeys (td.properties.map Prod.fst) (input.map Prod.fst) ≠ [] →
      objectValidate td input = .error (.ts (.agg (propFailures td input ++
        (offendingKeys (td.properties.map Prod.fst) (input.map Prod.fst)).map
          (fun k => (ErrKey.str k,
            ErrDetail.text "Additional properties are not allowed."))))) ∧
      ∀ x ∈ propFailures td input, ∃ kc ∈ td.properties, x.1 = ErrKey.str kc.1) ∧
    (∀ (td : ObjectType) (desc : String) (input : List (String × PyValue)),
      td.description = some desc → td.additional_properties = true →
      propFailures td input = [] →
      objectValidate td input =
        .ok (objectPropsGo td.required input td.properties input []).1 ∧
      ∀ k, k ∉ td.properties.map Prod.fst →
        List.lookup k
            (objectPropsGo td.required input td.properties input []).1 =
          List.lookup k input) := by
  constructor
  · intro td desc input hdesc haddl hoff
    have herr : (objectPropsGo td.required input td.properties input []).2 =
        propFailures td input := by
      rw [objectPropsGo_errors]; simp [propFailures]
    have hoffeq : offendingKeys (td.properties.map Prod.fst)
        ((objectPropsGo td.required input td.properties input []).1.map Prod.fst) =
        offendingKeys (td.properties.map Prod.fst) (input.map Prod.fst) :=
      objectPropsGo_offending td.required input _ td.properties input []
        (fun kc hkc => List.mem_map.mpr ⟨kc, hkc, rfl⟩)
    have haddlerr : addlErrorsGo (td.properties.map Prod.fst)
        ((objectPropsGo td.required input td.properties input []).1.map Prod.fst) =
        (offendingKeys (td.properties.map Prod.fst) (input.map Prod.fst)).map
          (fun k => (ErrKey.str k,
            ErrDetail.text "Additional properties are not allowed.")) := by
      rw [addlErrorsGo_eq, hoffeq]
    constructor
    · have hne : propFailures td input ++
          (offendingKeys (td.properties.map Prod.fst) (input.map Prod.fst)).map
            (fun k => (ErrKey.str k,
              ErrDetail.text "Additional properties are not allowed.")) ≠ [] := by
        intro h
        have := congrArg List.length h
        simp only [List.length_append, List.length_map, List.length_nil] at this
        have : offendingKeys (td.properties.map Prod.fst)
            (input.map Prod.fst) = [] := List.eq_nil_of_length_eq_zero (by omega)
        exact hoff this
      simp only [objectValidate, hdesc, haddl, Bool.false_eq_true, if_false,
        herr, haddlerr]
      rw [isEmpty_false_of_ne_nil _ hne]
      simp
    · intro x hx
      obtain ⟨kc, hkc, heq⟩ := List.mem_filterMap.mp hx
      obtain ⟨d, hd, hx1⟩ := Option.map_eq_some'.mp heq
      exact ⟨kc, hkc, by rw [← hx1]⟩
  · intro td desc input hdesc haddl hnofail
    have herr : (objectPropsGo td.required input td.properties input []).2 =
        propFailures td input := by
      rw [objectPropsGo_errors]; simp [propFailures]
    constructor
    · simp only [objectValidate, hdesc, haddl, if_true, herr, hnofail]
      simp
    · intro k hk
      exact objectPropsGo_lookup_undeclared td.required input td.properties
        input [] k hk

/-- Witness for C5 at both conjuncts: with `additional_properties=False`,
input keys `x`/`y` (only `a` is declared) are exactly the entries of the
aggregate, each with the additional-properties message; with
`additional_properties=True`, the undeclared key `x` is copied through. -/
theorem additional_properties_exact_offenders_witness :
    objectValidate
      { description := some "o",
        properties := [("a", ChildType.ofBoolean { description := some "b" })],
        additional_properties := false }
      [("x", .int 1), ("a", .bool true), ("y", .int 2)] =
      .error (.ts (.agg
        [(.str "x", .text "Additional properties are not allowed."),
         (.str "y", .text "Additional properties are not allowed.")])) ∧
    List.lookup "x"
        (objectPropsGo [] [("a", .bool true), ("x", .int 7)]
          [("a", ChildType.ofBoolean { description := some "b" })]
          [("a", .bool true), ("x", .int 7)] []).1 =
      List.lookup "x" [("a", .bool true), ("x", .int 7)] :=
  ⟨((additional_properties_exact_offenders.1
      { description := some "o",
        properties := [("a", ChildType.ofBoolean { description := some "b" })],
        additional_properties := false }
      "o" [("x", .int 1), ("a", .bool true), ("y", .int 2)]
      rfl rfl (by decide)).1).trans (by rfl),
   (additional_properties_exact_offenders.2
      { description := some "o",
        properties := [("a", ChildType.ofBoolean { description := some "b" })],
        additional_properties := true }
      "o" [("a", .bool true), ("x", .int 7)] rfl rfl (by rfl)).2
      "x" (by decide)⟩

/-! ## `doctor/schema.py` — `SchemaRefResolver`

`SchemaRefResolver` subclasses `jsonschema.RefResolver` (v2.x); the pieces
of the superclass that `resolve` uses are modelled here from their known
semantics: the scope stack starts as `[base_uri]`, `resolution_scope` is its
last entry, `push_scope`/`pop_scope` append/remove at the end,
`_urljoin_cache` is `urllib.parse.urljoin`, and `_remote_cache` is
`resolve_from_url` (defragment, look the URI up in the store, resolve the
fragment in the found document).  The store maps fragment-free URIs to
documents; URIs outside the store would hit `resolve_remote` (file/network
I/O), which the embedding models as an unavailable remote — a
`RefResolutionError`.  Schema documents are JSON trees, reusing `PyValue`. -/

/-- Split a URI at its first `#`: `urllib.parse.urldefrag`. -/
def urldefragL (l : List Char) : List Char × List Char :=
  (l.takeWhile (fun c => c != '#'), (l.dropWhile (fun c => c != '#')).drop 1)

/-- `urldefrag` on `String`s: `(uri-without-fragment, fragment)`. -/
def urldefrag (s : String) : String × String :=
  ((urldefragL s.data).1.asString, (urldefragL s.data).2.asString)

/-- Split a character list on a separator character — `str.split(sep)` for
a one-character separator. -/
def splitOnCharL (sep : Char) : List Char → List (List Char)
  | [] => [[]]
  | c :: rest =>
    let r := splitOnCharL sep rest
    if c = sep then [] :: r
    else
      match r with
      | h :: t => (c :: h) :: t
      | [] => [[c]]

/-- One piece of a `%`-split string: decode a leading two-hex-digit escape,
else restore the `%` (exactly CPython `urllib.parse.unquote`, which splits
on `%` and treats each piece independently; multi-byte UTF-8 sequences are
not recombined — no claim uses them). -/
def unquoteBit (l : List Char) : List Char :=
  match l with
  | h1 :: h2 :: rest =>
    match hexVal h1, hexVal h2 with
    | some a, some b => Char.ofNat (16 * a + b) :: rest
    | _, _ => '%' :: l
  | _ => '%' :: l

/-- Percent-decoding (`urllib.parse.unquote`) on ASCII data. -/
def pyUnquoteL (l : List Char) : List Char :=
  match splitOnCharL '%' l with
  | [] => l
  | first :: parts => first ++ (parts.map unquoteBit).flatten

/-- `unquote` on `String`s. -/
def pyUnquote (s : String) : String := (pyUnquoteL s.data).asString

/-- `str.replace("~1", "/")`, left-to-right non-overlapping. -/
def replace71 : List Char → List Char
  | [] => []
  | '~' :: '1' :: rest => '/' :: replace71 rest
  | c :: rest => c :: replace71 rest

/-- `str.replace("~0", "~")`, left-to-right non-overlapping. -/
def replace70 : List Char → List Char
  | [] => []
  | '~' :: '0' :: rest => '~' :: replace70 rest
  | c :: rest => c :: replace70 rest

/-- Does the reference contain `://` (an absolute URI)? -/
def hasScheme : List Char → Bool
  | ':' :: '/' :: '/' :: _ => true
  | _ :: rest => hasScheme rest
  | [] => false

/-- Model of `urllib.parse.urljoin` for the reference shapes the resolver
meets: the empty reference (returns the defragmented base), a pure fragment
`#...` (replaces the base's fragment), an absolute URI (contains `://`),
and a relative path (joined onto the base's directory).  Scheme-relative
references and `..` normalization are not modelled — no schema reference in
the repository uses them. -/
def pyUrljoin (base ref : String) : String :=
  if ref = "" then (urldefrag base).1
  else if ref.data.headD ' ' = '#' then (urldefrag base).1 ++ ref
  else if hasScheme ref.data then ref
  else
    let b := (urldefrag base).1
    (b.data.reverse.dropWhile (fun c => c != '/')).reverse.asString ++ ref

/-- A `jsonschema.RefResolutionError`, carrying its message. -/
inductive RErr where
  | refResolution (msg : String)

/-- The message of a `RefResolutionError` (`e.args[0]`). -/
def RErr.msg : RErr → String
  | .refResolution m => m

/-- Python `repr` of a short string (`%r`): quotes added, escaping not
modelled (the fragments involved contain no quotes). -/
def pyRepr (s : String) : String := "'" ++ s ++ "'"

/-- Python list indexing with negative-index support. -/
def listIndex (xs : List PyValue) (n : Int) : Option PyValue :=
  let idx := if n < 0 then (xs.length : Int) + n else n
  if idx < 0 then Option.none else xs.get? idx.toNat

/-- The walk of `jsonschema.RefResolver.resolve_fragment`: each part has
`~1`/`~0` unescaped; on a list, the part is converted with `int` if
possible; a failed lookup raises `RefResolutionError` naming the (left-
stripped) fragment. -/
def fragGo (fragment : String) : List String → PyValue → Except RErr PyValue
  | [], doc => .ok doc
  | p :: ps, doc =>
    let part : String := (replace70 (replace71 p.data)).asString
    match doc with
    | .list xs =>
      match pyInt part with
      | some n =>
        match listIndex xs n with
        | some v => fragGo fragment ps v
        | Option.none =>
          .error (.refResolution
            ("Unresolvable JSON pointer: " ++ pyRepr fragment))
      | Option.none =>
        .error (.refResolution
          ("Unresolvable JSON pointer: " ++ pyRepr fragment))
    | .dict entries =>
      match List.lookup part entries with
      | some v => fragGo fragment ps v
      | Option.none =>
        .error (.refResolution
          ("Unresolvable JSON pointer: " ++ pyRepr fragment))
    | _ =>
      .error (.refResolution
        ("Unresolvable JSON pointer: " ++ pyRepr fragment))

/-- `resolve_fragment(document, fragment)`: left-strip `/`, percent-decode,
split on `/`, and walk. -/
def resolveFragment (doc : PyValue) (fragment : String) : Except RErr PyValue :=
  let frag : String := (fragment.data.dropWhile (fun c => c == '/')).asString
  fragGo frag
    (if frag.data.isEmpty then []
     else ((splitOnCharL '/' (pyUnquoteL frag.data)).map List.asString)) doc

/-- `resolve_from_url` (= `_remote_cache`): defragment, find the document in
the store, resolve the fragment within it.  A URI outside the store would go
to `resolve_remote` — file/network I/O that the embedding has no access to,
so it fails as an unfetchable remote. -/
def resolveFromUrl (store : List (String × PyValue)) (url : String) :
    Except RErr PyValue :=
  match List.lookup (urldefrag url).1 store with
  | some doc => resolveFragment doc (urldefrag url).2
  | Option.none =>
    .error (.refResolution ("Could not resolve remote document: " ++
      (urldefrag url).1))

/-- The fetch step of `SchemaRefResolver.resolve`: without a `document`
argument, `_remote_cache(url)`; with one, `resolve_fragment(document,
urldefrag(url).fragment)`. -/
def fetchNode (store : List (String × PyValue)) (url : String)
    (doc : Option PyValue) : Except RErr PyValue :=
  match doc with
  | Option.none => resolveFromUrl store url
  | some d => resolveFragment d (urldefrag url).2

/-- `resolution_scope`: the top (= last entry) of the scope stack.  The
stack always holds at least the base URI (`jsonschema.RefResolver.__init__`
sets `self._scopes_stack = [base_uri]`). -/
def scopeOf (stack : List String) : String := stack.getLastD ""

/-- The character-wise longest common prefix of two strings. -/
def common2 : List Char → List Char → List Char
  | x :: xs, y :: ys => if x = y then x :: common2 xs ys else []
  | _, _ => []

/-- `os.path.commonprefix`: the longest common prefix of all the strings
(the min/max trick of the stdlib computes exactly the pairwise fold). -/
def commonStart : List String → String
  | [] => ""
  | s :: rest => (rest.foldl (fun acc t => common2 acc t.data) s.data).asString

/-- `SchemaRefResolver._format_stack`: when more than one scope is on the
stack, collapse their common prefix (trimming a trailing `/` from it) and
join with `" => "`.  (The `current` parameter of the source is never used
by `resolve`, which passes the appended list itself.) -/
def _format_stack (stack : List String) : String :=
  let stack2 :=
    if 1 < stack.length then
      let pre := commonStart stack
      let pre := if pre.data.getLastD ' ' = '/' then pre.data.dropLast.asString
        else pre
      stack.map (fun s => (s.data.drop pre.data.length).asString)
    else stack
  String.intercalate " => " stack2

/-- `'$ref' in resolved` plus the read `resolved['$ref']`.  (The source
would pass a non-`str` `$ref` value to `urljoin` and crash; such documents
are outside the modelled value space.) -/
def getRef : PyValue → Option String
  | .dict entries =>
    match List.lookup "$ref" entries with
    | some (.str r) => some r
    | _ => Option.none
  | _ => Option.none

/-- How a resolve call fails: a `doctor` `SchemaError` carrying its
message, or the fuel marker (the model's stand-in for unbounded recursion —
never reached with enough fuel). -/
inductive SErr where
  | schemaError (msg : String)
  | depthExceeded

/-- `SchemaRefResolver.resolve(ref, document)`, state-passing: the result
together with the scope stack after the call.  Faithful to the source:
join the ref against the current resolution scope; fetch (prettifying a
`RefResolutionError` into a `SchemaError` with the formatted stack);
if the resolved node holds a `$ref`, refuse when the URL is already on the
scope stack (circular reference), else push the URL, recurse on the nested
ref, and pop on the way out (the `finally` applies to success and failure
alike).  The fuel decreases once per call and only bounds the modelled
recursion depth. -/
def resolveAux (store : List (String × PyValue)) :
    Nat → List String → String → Option PyValue →
      Except SErr (String × PyValue) × List String
  | 0, stack, _, _ => (.error .depthExceeded, stack)
  | fuel + 1, stack, ref, doc =>
    let url := pyUrljoin (scopeOf stack) ref
    match fetchNode store url doc with
    | .error e =>
      (.error (.schemaError (if stack.isEmpty then e.msg
        else e.msg ++ " (from " ++ _format_stack stack ++ ")")), stack)
    | .ok resolved =>
      match getRef resolved with
      | some ref2 =>
        if url ∈ stack then
          (.error (.schemaError ("Circular reference in schema: " ++
            _format_stack (stack ++ [url]))), stack)
        else
          let r := resolveAux store fuel (stack ++ [url]) ref2 Option.none
          (r.1, r.2.dropLast)
      | Option.none => (.ok (url, resolved), stack)

/-! ## Claims about the resolver (C9, C2, C7) -/

/-- Claim C9: every `SchemaRefResolver.resolve` call leaves the resolution
scope stack exactly as it found it, whether it returns a resolved value or
raises — every push during the call is popped on every exit path (the
`finally` in the source). -/
theorem resolve_scope_stack_restored (store : List (String × PyValue)) :
    ∀ (fuel : Nat) (stack : List String) (ref : String)
      (doc : Option PyValue),
      (resolveAux store fuel stack ref doc).2 = stack := by
  intro fuel
  induction fuel with
  | zero => intro stack ref doc; rfl
  | succ f ih =>
    intro stack ref doc
    simp only [resolveAux]
    rcases hf : fetchNode store (pyUrljoin (scopeOf stack) ref) doc with e | node
    · simp only []
    · simp only []
      rcases hr : getRef node with _ | ref2
      · simp only []
      · simp only []
        split_ifs with hmem
        · rfl
        · simp only [ih, List.dropLast_concat]

/-- Claim C2 (two-definition `$ref` cycle, universally over every store and
reference chain realizing it): when resolving `refA` from the base scope
fetches a node referring to `refB`, whose resolution fetches a node
referring back to `urlA`, `SchemaRefResolver.resolve` terminates for every
sufficient fuel with a `SchemaError` naming the full chain (formatted with
the common prefix of the stack collapsed) — the already-on-stack URI is
never resolved again, the chain is not truncated, and the scope stack is
restored. -/
theorem resolve_circular_two_cycle (store : List (String × PyValue))
    (base refA refB refA2 urlA urlB : String) (nodeA nodeB : PyValue)
    (hUA : pyUrljoin base refA = urlA)
    (hFA : resolveFromUrl store urlA = .ok nodeA)
    (hRA : getRef nodeA = some refB)
    (hA : urlA ≠ base)
    (hUB : pyUrljoin urlA refB = urlB)
    (hFB : resolveFromUrl store urlB = .ok nodeB)
    (hRB : getRef nodeB = some refA2)
    (hB1 : urlB ≠ base) (hB2 : urlB ≠ urlA)
    (hUA2 : pyUrljoin urlB refA2 = urlA) :
    ∀ fuel, 3 ≤ fuel →
      resolveAux store fuel [base] refA Option.none =
        (.error (.schemaError ("Circular reference in schema: " ++
          _format_stack [base, urlA, urlB, urlA])), [base]) := by
  intro fuel hfuel
  obtain ⟨f, rfl⟩ : ∃ f, fuel = f + 3 := ⟨fuel - 3, by omega⟩
  have hu1 : pyUrljoin (scopeOf [base]) refA = urlA := hUA
  have hu2 : pyUrljoin (scopeOf [base, urlA]) refB = urlB := hUB
  have hu3 : pyUrljoin (scopeOf [base, urlA, urlB]) refA2 = urlA := hUA2
  have hfA : fetchNode store urlA Option.none = .ok nodeA := hFA
  have hfB : fetchNode store urlB Option.none = .ok nodeB := hFB
  simp only [resolveAux, List.cons_append, List.nil_append, hu1, hu2, hu3,
    hfA, hfB, hRA, hRB]
  simp [hA, hB1, hB2, List.dropLast]

/-- Witness for C2: the schema `definitions: {A: {$ref: '#/definitions/B'},
B: {$ref: '#/definitions/A'}}` with the empty base URI of
`RefResolver.from_schema`; resolving `#/definitions/A` reports the chain
` => #/definitions/A => #/definitions/B => #/definitions/A` (the common
prefix of the stack is empty because the base scope is the empty string)
and restores the stack. -/
theorem resolve_circular_two_cycle_witness :
    resolveAux
      [("", .dict [("definitions", .dict
        [("A", .dict [("$ref", .str "#/definitions/B")]),
         ("B", .dict [("$ref", .str "#/definitions/A")])])])]
      3 [""] "#/definitions/A" Option.none =
      (.error (.schemaError
        ("Circular reference in schema:  => #/definitions/A => " ++
          "#/definitions/B => #/definitions/A")), [""]) := by
  have h := resolve_circular_two_cycle
    [("", .dict [("definitions", .dict
      [("A", .dict [("$ref", .str "#/definitions/B")]),
       ("B", .dict [("$ref", .str "#/definitions/A")])])])]
    "" "#/definitions/A" "#/definitions/B" "#/definitions/A"
    "#/definitions/A" "#/definitions/B"
    (.dict [("$ref", .str "#/definitions/B")])
    (.dict [("$ref", .str "#/definitions/A")])
    (by rfl) (by rfl) (by rfl) (by decide) (by rfl) (by rfl) (by rfl)
    (by decide) (by decide) (by rfl) 3 (by decide)
  exact h.trans (by rfl)

/-- `#` never survives in the defragmented part of a URI. -/
theorem hash_not_mem_takeWhile (l : List Char) :
    '#' ∉ l.takeWhile (fun c => c != '#') := by
  induction l with
  | nil => simp
  | cons c rest ih =>
    rw [List.takeWhile_cons]
    by_cases hc : c = '#'
    · simp [hc]
    · simp only [bne_iff_ne, ne_eq, hc, not_false_eq_true, if_true,
        List.mem_cons]
      rintro (h | h)
      · exact hc h.symm
      · exact ih h

theorem takeWhile_append_hash (f : List Char) :
    ∀ (a : List Char), '#' ∉ a →
      (a ++ '#' :: f).takeWhile (fun c => c != '#') = a := by
  intro a
  induction a with
  | nil => intro ha; simp [List.takeWhile_cons]
  | cons c a2 ih =>
    intro ha
    have hc : c ≠ '#' := fun h => ha (by simp [h])
    rw [List.cons_append, List.takeWhile_cons]
    simp only [bne_iff_ne, ne_eq, hc, not_false_eq_true, if_true]
    rw [ih (fun h => ha (List.mem_cons_of_mem c h))]

theorem dropWhile_append_hash (f : List Char) :
    ∀ (a : List Char), '#' ∉ a →
      (a ++ '#' :: f).dropWhile (fun c => c != '#') = '#' :: f := by
  intro a
  induction a with
  | nil => intro ha; simp [List.dropWhile_cons]
  | cons c a2 ih =>
    intro ha
    have hc : c ≠ '#' := fun h => ha (by simp [h])
    rw [List.cons_append, List.dropWhile_cons]
    simp only [bne_iff_ne, ne_eq, hc, not_false_eq_true, if_true]
    exact ih (fun h => ha (List.mem_cons_of_mem c h))

/-- Defragmenting a hash-free prefix followed by `#fragment` recovers the
parts. -/
theorem urldefragL_append (a f : List Char) (ha : '#' ∉ a) :
    urldefragL (a ++ '#' :: f) = (a, f) := by
  unfold urldefragL
  rw [takeWhile_append_hash f a ha, dropWhile_append_hash f a ha]
  rfl

/-- Counterexample to claim C7: `SchemaRefResolver.resolve` performs **no**
`oneOf`/`anyOf` selection.  Chasing `#/definitions/X` to the node `Y` that
holds a `oneOf` composition returns the `oneOf` node itself, unchanged —
not its first alternative. -/
theorem resolver_returns_oneOf_node_unchanged :
    resolveAux
      [("", .dict [("definitions", .dict
        [("X", .dict [("$ref", .str "#/definitions/Y")]),
         ("Y", .dict [("oneOf", .list
           [.dict [("type", .str "string")],
            .dict [("type", .str "integer")]])])])])]
      2 [""] "#/definitions/X" Option.none =
      (.ok ("#/definitions/Y", .dict [("oneOf", .list
        [.dict [("type", .str "string")],
         .dict [("type", .str "integer")]])]), [""]) ∧
    (PyValue.dict [("oneOf", PyValue.list
      [.dict [("type", .str "string")],
       .dict [("type", .str "integer")]])]) ≠
      PyValue.dict [("type", PyValue.str "string")] := by
  refine ⟨by rfl, fun h => ?_⟩
  have hdisc := congrArg (fun v =>
    match v with
    | PyValue.dict (("oneOf", _) :: _) => true
    | _ => false) h
  exact Bool.noConfusion hdisc

/-- Amended C7: the schema reference resolver leaves composition nodes
alone — any resolved node without a `$ref` (in particular one carrying
`oneOf`/`anyOf`) is returned unchanged, no alternative attempted.
First-alternative selection lives in the documentation layer
(`doctor/docs/base.py`), whose `resolve_of_type` asks the resolver for the
fragment `'#<of-type>/0'` inside the composition document; resolving that
fragment yields exactly the first listed alternative. -/
theorem resolver_no_oneOf_selection :
    (∀ (store : List (String × PyValue)) (fuel : Nat) (stack : List String)
      (ref : String) (doc : Option PyValue) (node : PyValue),
      fetchNode store (pyUrljoin (scopeOf stack) ref) doc = .ok node →
      getRef node = Option.none →
      resolveAux store (fuel + 1) stack ref doc =
        (.ok (pyUrljoin (scopeOf stack) ref, node), stack)) ∧
    (∀ (store : List (String × PyValue)) (fuel : Nat) (stack : List String)
      (d1 : PyValue) (rest : List PyValue),
      getRef d1 = Option.none →
      resolveAux store (fuel + 1) stack "#oneOf/0"
          (some (.dict [("oneOf", .list (d1 :: rest))])) =
        (.ok (pyUrljoin (scopeOf stack) "#oneOf/0", d1), stack)) := by
  constructor
  · intro store fuel stack ref doc node hf hr
    simp only [resolveAux, hf, hr]
  · intro store fuel stack d1 rest h1
    have hdefrag2 : (urldefrag (pyUrljoin (scopeOf stack) "#oneOf/0")).2 =
        "oneOf/0" := by
      have hurl : pyUrljoin (scopeOf stack) "#oneOf/0" =
          (urldefrag (scopeOf stack)).1 ++ "#oneOf/0" := rfl
      rw [hurl]
      have hdata : ((urldefrag (scopeOf stack)).1 ++ "#oneOf/0").data =
          (urldefragL (scopeOf stack).data).1 ++ '#' :: "oneOf/0".data := by
        simp [urldefrag, String.data_append, List.asString]
      have hnohash : '#' ∉ (urldefragL (scopeOf stack).data).1 :=
        hash_not_mem_takeWhile (scopeOf stack).data
      rw [urldefrag, hdata,
        urldefragL_append (urldefragL (scopeOf stack).data).1 "oneOf/0".data
          hnohash]
      rfl
    have hfrag : resolveFragment
        (.dict [("oneOf", PyValue.list (d1 :: rest))]) "oneOf/0" =
        .ok d1 := by
      show fragGo "oneOf/0" ["oneOf", "0"]
        (.dict [("oneOf", PyValue.list (d1 :: rest))]) = .ok d1
      rw [fragGo]
      show (match List.lookup "oneOf" [("oneOf", PyValue.list (d1 :: rest))] with
        | some v => fragGo "oneOf/0" ["0"] v
        | Option.none => Except.error (.refResolution
            ("Unresolvable JSON pointer: " ++ pyRepr "oneOf/0"))) = .ok d1
      rw [show List.lookup "oneOf" [("oneOf", PyValue.list (d1 :: rest))] =
        some (PyValue.list (d1 :: rest)) from rfl]
      show fragGo "oneOf/0" ["0"] (PyValue.list (d1 :: rest)) = .ok d1
      rw [fragGo]
      show (match listIndex (d1 :: rest) 0 with
        | some v => fragGo "oneOf/0" [] v
        | Option.none => Except.error (.refResolution
            ("Unresolvable JSON pointer: " ++ pyRepr "oneOf/0"))) = .ok d1
      rfl
    have hfetch : fetchNode store (pyUrljoin (scopeOf stack) "#oneOf/0")
        (some (.dict [("oneOf", PyValue.list (d1 :: rest))])) = .ok d1 := by
      show resolveFragment _ (urldefrag (pyUrljoin (scopeOf stack) "#oneOf/0")).2 = _
      rw [hdefrag2]
      exact hfrag
    simp only [resolveAux, hfetch, h1]

/-- Witness for C7 (amended): resolving `#/definitions/Y` directly returns
the `oneOf` node as-is, and the docs-layer fragment `#oneOf/0` resolved
inside that composition yields its first alternative. -/
theorem resolver_no_oneOf_selection_witness :
    resolveAux
      [("", .dict [("definitions", .dict
        [("Y", .dict [("oneOf", .list
          [.dict [("type", .str "string")],
           .dict [("type", .str "integer")]])])])])]
      1 [""] "#/definitions/Y" Option.none =
      (.ok ("#/definitions/Y", .dict [("oneOf", .list
        [.dict [("type", .str "string")],
         .dict [("type", .str "integer")]])]), [""]) ∧
    resolveAux [] 1 [""] "#oneOf/0"
        (some (.dict [("oneOf", .list
          [.dict [("type", .str "string")],
           .dict [("type", .str "integer")]])])) =
      (.ok ("#oneOf/0", .dict [("type", .str "string")]), [""]) := by
  constructor
  · exact (resolver_no_oneOf_selection.1
      [("", .dict [("definitions", .dict
        [("Y", .dict [("oneOf", .list
          [.dict [("type", .str "string")],
           .dict [("type", .str "integer")]])])])])]
      0 [""] "#/definitions/Y" Option.none
      (.dict [("oneOf", .list
        [.dict [("type", .str "string")],
         .dict [("type", .str "integer")]])])
      (by rfl) (by rfl)).trans (by rfl)
  · exact (resolver_no_oneOf_selection.2 [] 0 [""]
      (.dict [("type", .str "string")])
      [.dict [("type", .str "integer")]] (by rfl)).trans (by rfl)

end Doctor
